import Mathlib

/-!
Verification of the criminal-network pattern-detection engine
(`src/criminal_detector.py`, `src/network_analysis.py`).

The Python code is shallowly embedded below.  Python floats are modelled
as exact rationals (`ℚ`); the decimal literals appearing in the source
(0.4, 0.001, 0.005, …) denote the corresponding exact rationals.
Machine integers are `Nat`/`ℤ` (no overflow concerns arise: all values
are small).  The `networkx` graph is modelled by its node list and
adjacency function; per-node metric dictionaries (with `.get(node, 0)`
defaults) are modelled as total functions defaulting to 0, and the
`city` attribute (with `.get('city', '')` default) as a total function
defaulting to `""`.
-/

/-- The read-only state of `SocialNetworkAnalyzer` as consumed by
`CriminalNetworkDetector`: the graph (node list + adjacency) and the
metric tables used by the detector (`betweenness_centrality`,
`clustering_coefficient`), plus the per-node `city` attribute.
`nodes` models `graph.nodes()`; `adj n` models
`list(graph.neighbors(n))` (`get_neighbors`, network_analysis.py:81-82). -/
structure Analyzer where
  nodes : List Nat
  adj : Nat → List Nat
  city : Nat → String
  betweenness : Nat → ℚ
  clustering : Nat → ℚ

/-- `graph.degree(n)`: number of incident edges, i.e. the length of the
neighbor list of a simple graph. -/
def Analyzer.degree (a : Analyzer) (n : Nat) : Nat := (a.adj n).length

/-- The configuration record loaded from `config/analysis_config.yaml`
(criminal_detector.py:10-11).  The yaml file itself is not part of the
sources under verification, so its numeric entries are kept abstract. -/
structure Config where
  employee_expected_contacts : ℤ
  employee_tolerance : ℤ
  handlers_min : ℤ
  handlers_max : ℤ
  leader_min_contacts : ℤ
  large_cities : List String
  small_cities : List String

/-- One step of a stable descending insertion sort: insert `x` before
the first element with a strictly smaller key, so that among equal keys
earlier input elements stay first — the tie behavior of Python's stable
`list.sort(key=..., reverse=True)`. -/
def insertDescBy {α : Type*} {β : Type*} [LinearOrder β] (f : α → β) (x : α) :
    List α → List α
  | [] => [x]
  | y :: ys => if f y ≤ f x then x :: y :: ys else y :: insertDescBy f x ys

/-- Python `list.sort(key=lambda x: f(x), reverse=True)`: a stable sort
placing larger `f`-values first. -/
def sortDescBy {α : Type*} {β : Type*} [LinearOrder β] (f : α → β) : List α → List α
  | [] => []
  | x :: xs => insertDescBy f x (sortDescBy f xs)

theorem insertDescBy_perm {α : Type*} {β : Type*} [LinearOrder β] (f : α → β) (x : α)
    (l : List α) : List.Perm (insertDescBy f x l) (x :: l) := by
  induction l with
  | nil => rfl
  | cons y ys ih =>
    rw [insertDescBy]
    split
    · rfl
    · exact List.Perm.trans (List.Perm.cons y ih) (List.Perm.swap x y ys)

theorem sortDescBy_perm {α : Type*} {β : Type*} [LinearOrder β] (f : α → β) (l : List α) :
    List.Perm (sortDescBy f l) l := by
  induction l with
  | nil => rfl
  | cons x xs ih =>
    rw [sortDescBy]
    exact List.Perm.trans (insertDescBy_perm f x (sortDescBy f xs)) (List.Perm.cons x ih)

theorem mem_sortDescBy {α : Type*} {β : Type*} [LinearOrder β] {f : α → β} {l : List α}
    {x : α} : x ∈ sortDescBy f l ↔ x ∈ l :=
  (sortDescBy_perm f l).mem_iff

theorem sortDescBy_length {α : Type*} {β : Type*} [LinearOrder β] (f : α → β) (l : List α) :
    (sortDescBy f l).length = l.length :=
  (sortDescBy_perm f l).length_eq

theorem insertDescBy_sorted {α : Type*} {β : Type*} [LinearOrder β] (f : α → β) (x : α)
    {l : List α} (h : List.Sorted (fun u v => f v ≤ f u) l) :
    List.Sorted (fun u v => f v ≤ f u) (insertDescBy f x l) := by
  induction l with
  | nil => simp [insertDescBy]
  | cons y ys ih =>
    rw [List.sorted_cons] at h
    rw [insertDescBy]
    split
    · rename_i hyx
      rw [List.sorted_cons]
      refine ⟨?_, List.sorted_cons.mpr h⟩
      intro b hb
      rcases List.mem_cons.mp hb with hb | hb
      · subst hb; exact hyx
      · exact le_trans (h.1 b hb) hyx
    · rename_i hyx
      rw [List.sorted_cons]
      refine ⟨?_, ih h.2⟩
      intro b hb
      have hb' := (insertDescBy_perm f x ys).mem_iff.mp hb
      rcases List.mem_cons.mp hb' with hb' | hb'
      · subst hb'; exact le_of_lt (lt_of_not_ge hyx)
      · exact h.1 b hb'

theorem sortDescBy_sorted {α : Type*} {β : Type*} [LinearOrder β] (f : α → β) (l : List α) :
    List.Sorted (fun x y => f y ≤ f x) (sortDescBy f l) := by
  induction l with
  | nil => simp [sortDescBy]
  | cons x xs ih => exact insertDescBy_sorted f x ih

/-- The running-best loop body shared by `_find_fearless_leader`
(criminal_detector.py:322-341) and `_find_best_middleman_for_handler`
(criminal_detector.py:287-300): if the current item passes the guard
and its score strictly exceeds the best score so far, it becomes the
new best candidate. -/
def bestByStep {α : Type*} (p : α → Prop) [DecidablePred p] (f : α → ℚ)
    (st : Option α × ℚ) (n : α) : Option α × ℚ :=
  if p n ∧ st.2 < f n then (some n, f n) else st

/-- Running-best scan: start from `best_candidate = None`,
`best_score = 0` and fold `bestByStep` over the list. -/
def bestBy {α : Type*} (p : α → Prop) [DecidablePred p] (f : α → ℚ)
    (l : List α) : Option α × ℚ :=
  l.foldl (bestByStep p f) (none, 0)

theorem bestBy_foldl_cases {α : Type*} (p : α → Prop) [DecidablePred p] (f : α → ℚ) :
    ∀ (l : List α) (st : Option α × ℚ),
      (l.foldl (bestByStep p f) st = st ∧ ∀ n ∈ l, p n → f n ≤ st.2) ∨
      (∃ b ∈ l, (l.foldl (bestByStep p f) st).1 = some b ∧
        (l.foldl (bestByStep p f) st).2 = f b ∧ p b ∧ st.2 < f b ∧
        ∀ n ∈ l, p n → f n ≤ f b) := by
  intro l
  induction l with
  | nil =>
    intro st
    exact Or.inl ⟨rfl, by simp⟩
  | cons x xs ih =>
    intro st
    by_cases hx : p x ∧ st.2 < f x
    · have hstep : bestByStep p f st x = (some x, f x) := by
        simp [bestByStep, hx]
      rcases ih ((some x, f x)) with ⟨heq, hall⟩ | ⟨b, hb, h1, h2, hpb, hlt, hall⟩
      · refine Or.inr ⟨x, List.mem_cons_self x xs, ?_, ?_, hx.1, hx.2, ?_⟩
        · simp only [List.foldl_cons, hstep, heq]
        · simp only [List.foldl_cons, hstep, heq]
        · intro n hn hpn
          rcases List.mem_cons.mp hn with h | h
          · subst h; exact le_refl _
          · exact (hall n h hpn)
      · refine Or.inr ⟨b, List.mem_cons_of_mem x hb, ?_, ?_, hpb, lt_trans hx.2 hlt, ?_⟩
        · simp only [List.foldl_cons, hstep]; exact h1
        · simp only [List.foldl_cons, hstep]; exact h2
        · intro n hn hpn
          rcases List.mem_cons.mp hn with h | h
          · subst h; exact le_of_lt hlt
          · exact hall n h hpn
    · have hstep : bestByStep p f st x = st := by
        simp [bestByStep, hx]
      rcases ih st with ⟨heq, hall⟩ | ⟨b, hb, h1, h2, hpb, hlt, hall⟩
      · refine Or.inl ⟨?_, ?_⟩
        · simp only [List.foldl_cons, hstep, heq]
        · intro n hn hpn
          rcases List.mem_cons.mp hn with h | h
          · subst h
            by_contra hc
            exact hx ⟨hpn, lt_of_not_ge hc⟩
          · exact hall n h hpn
      · refine Or.inr ⟨b, List.mem_cons_of_mem x hb, ?_, ?_, hpb, hlt, ?_⟩
        · simp only [List.foldl_cons, hstep]; exact h1
        · simp only [List.foldl_cons, hstep]; exact h2
        · intro n hn hpn
          rcases List.mem_cons.mp hn with h | h
          · subst h
            have : ¬ st.2 < f n := fun hc => hx ⟨hpn, hc⟩
            exact le_trans (le_of_not_lt this) (le_of_lt hlt)
          · exact hall n h hpn

theorem bestBy_eq_some {α : Type*} {p : α → Prop} [DecidablePred p] {f : α → ℚ}
    {l : List α} {b : α} (h : (bestBy p f l).1 = some b) :
    b ∈ l ∧ p b ∧ 0 < f b ∧ ∀ n ∈ l, p n → f n ≤ f b := by
  rcases bestBy_foldl_cases p f l (none, 0) with ⟨heq, _⟩ | ⟨b', hb', h1, _, hpb, hlt, hall⟩
  · rw [bestBy, heq] at h
    exact absurd h (by simp)
  · rw [bestBy] at h
    rw [h1] at h
    injection h with h
    subst h
    exact ⟨hb', hpb, hlt, hall⟩

theorem bestBy_eq_none_iff_le {α : Type*} (p : α → Prop) [DecidablePred p] (f : α → ℚ)
    (l : List α) : (bestBy p f l).1 = none ↔ ∀ n ∈ l, p n → f n ≤ 0 := by
  constructor
  · intro h
    rcases bestBy_foldl_cases p f l (none, 0) with ⟨heq, hall⟩ | ⟨b, _, h1, _, _, _, _⟩
    · simpa using hall
    · rw [bestBy, h1] at h
      exact absurd h (by simp)
  · intro hall
    rcases bestBy_foldl_cases p f l (none, 0) with ⟨heq, _⟩ | ⟨b, hb, _, _, hpb, hlt, _⟩
    · rw [bestBy, heq]
    · exact absurd (hall b hb hpb) (not_le_of_lt hlt)

theorem bestBy_eq_none_iff {α : Type*} (p : α → Prop) [DecidablePred p] (f : α → ℚ)
    (l : List α) (hpos : ∀ n ∈ l, p n → 0 < f n) :
    (bestBy p f l).1 = none ↔ ∀ n ∈ l, ¬ p n := by
  rw [bestBy_eq_none_iff_le]
  constructor
  · intro h n hn hpn
    exact absurd (h n hn hpn) (not_le_of_lt (hpos n hn hpn))
  · intro h n hn hpn
    exact absurd hpn (h n hn)

/-- criminal_detector.py:311: `max(1, int(total_nodes * 0.02))`.
For every node count below 2^52 the float product `total_nodes * 0.02`
truncates to `⌊total_nodes / 50⌋` (the representation error of the
double 0.02 is ~1e-16, far below the 1/50 gap to the next integer),
so it is embedded as exact natural division. -/
def top_2_percent_count (total_nodes : Nat) : Nat :=
  max 1 (total_nodes * 2 / 100)

/-- criminal_detector.py:313-314: all node degrees sorted descending,
indexed at `min(top_2_percent_count, len(all_degrees) - 1)`.
The index is always in range for a nonempty graph, so the `getD`
default 0 is never consulted there. -/
def degree_threshold_top2 (a : Analyzer) : Nat :=
  let all_degrees := sortDescBy id (a.nodes.map a.degree)
  all_degrees.getD (min (top_2_percent_count a.nodes.length) (all_degrees.length - 1)) 0

/-- criminal_detector.py:316-317: the values of the
`betweenness_centrality` dict sorted descending, indexed likewise.
`nx.betweenness_centrality` (network_analysis.py:47) returns one entry
per graph node, so the dict's value list is `a.nodes.map a.betweenness`. -/
def betweenness_threshold_top2 (a : Analyzer) : ℚ :=
  let all_betweenness := sortDescBy id (a.nodes.map a.betweenness)
  all_betweenness.getD (min (top_2_percent_count a.nodes.length) (all_betweenness.length - 1)) 0

/-- criminal_detector.py:326-331: the guard a pool node must pass in
`_find_fearless_leader` (besides not being excluded):
`degree >= min_contacts and (degree >= degree_threshold or
betweenness >= betweenness_threshold)`. -/
def leader_qualifies (a : Analyzer) (cfg : Config) (n : Nat) : Prop :=
  cfg.leader_min_contacts ≤ (a.degree n : ℤ) ∧
    (degree_threshold_top2 a ≤ a.degree n ∨
      betweenness_threshold_top2 a ≤ a.betweenness n)

instance (a : Analyzer) (cfg : Config) (n : Nat) : Decidable (leader_qualifies a cfg n) := by
  unfold leader_qualifies
  infer_instance

/-- criminal_detector.py:334-337: `score = degree + betweenness * 1000`,
multiplied by 1.2 for a large-city node. -/
def leader_score (a : Analyzer) (cfg : Config) (n : Nat) : ℚ :=
  let score : ℚ := (a.degree n : ℚ) + a.betweenness n * 1000
  if a.city n ∈ cfg.large_cities then score * 1.2 else score

/-- criminal_detector.py:304-343 `_find_fearless_leader`: running-best
scan over the pool, skipping excluded ids, admitting qualifying nodes,
keeping the first node whose score strictly exceeds the best so far
(initially 0); returns `None` if nothing is kept. -/
def find_fearless_leader (a : Analyzer) (cfg : Config)
    (potential_leaders : List Nat) (exclude_ids : List Nat) : Option Nat :=
  (bestBy (fun n => n ∉ exclude_ids ∧ leader_qualifies a cfg n)
    (leader_score a cfg) potential_leaders).1

/-- criminal_detector.py:291: `15 <= degree <= 70 and betweenness > 0.005`. -/
def middleman_admissible (a : Analyzer) (n : Nat) : Prop :=
  15 ≤ a.degree n ∧ a.degree n ≤ 70 ∧ (0.005 : ℚ) < a.betweenness n

instance (a : Analyzer) (n : Nat) : Decidable (middleman_admissible a n) := by
  unfold middleman_admissible
  infer_instance

/-- criminal_detector.py:293-296: `score = betweenness * degree`,
multiplied by 1.3 for a small-city node. -/
def middleman_score (a : Analyzer) (cfg : Config) (n : Nat) : ℚ :=
  let score : ℚ := a.betweenness n * (a.degree n : ℚ)
  if a.city n ∈ cfg.small_cities then score * 1.3 else score

/-- criminal_detector.py:283-302 `_find_best_middleman_for_handler`:
running-best scan over the candidate pool with the admissibility guard,
starting from `best_candidate = None`, `best_score = 0`. -/
def find_best_middleman_for_handler (a : Analyzer) (cfg : Config)
    (potential_middlemen : List Nat) : Option Nat :=
  (bestBy (middleman_admissible a) (middleman_score a cfg) potential_middlemen).1

/-- criminal_detector.py:74-94 `_calculate_employee_score`. -/
def calculate_employee_score (a : Analyzer) (cfg : Config) (n : Nat) : ℚ :=
  let degree_diff : ℤ := |(a.degree n : ℤ) - cfg.employee_expected_contacts|
  let degree_score : ℚ := 1 / (1 + (degree_diff : ℚ))
  let s1 : ℚ := degree_score * 0.4
  let s2 : ℚ := s1 + (if a.city n ∈ cfg.large_cities then 0.3 else 0)
  let s3 : ℚ := s2 +
    (if (0.001 : ℚ) < a.betweenness n ∧ a.betweenness n < 0.05 then 0.2 else 0)
  s3 + (if (0.2 : ℚ) < a.clustering n ∧ a.clustering n < 0.6 then 0.1 else 0)

/-- criminal_detector.py:44-72 `identify_employee_candidates`: collect
`(node, score)` for every graph node whose degree lies in
`[expected - tolerance, expected + tolerance]`, then sort by score
descending. -/
def identify_employee_candidates (a : Analyzer) (cfg : Config) : List (Nat × ℚ) :=
  let min_contacts := cfg.employee_expected_contacts - cfg.employee_tolerance
  let max_contacts := cfg.employee_expected_contacts + cfg.employee_tolerance
  sortDescBy Prod.snd
    ((a.nodes.filter (fun n =>
        decide (min_contacts ≤ (a.degree n : ℤ) ∧ (a.degree n : ℤ) ≤ max_contacts))).map
      (fun n => (n, calculate_employee_score a cfg n)))

/-- criminal_detector.py:250-266 `_calculate_handler_score`. -/
def calculate_handler_score (a : Analyzer) (cfg : Config) (n : Nat) : ℚ :=
  let s1 : ℚ := 0.5 + (if 25 ≤ a.degree n ∧ a.degree n ≤ 45 then 0.4 else 0)
  let s2 : ℚ := s1 + (if a.city n ∈ cfg.large_cities then 0.2 else 0)
  s2 + (if (0.005 : ℚ) < a.betweenness n then 0.3
        else if (0.001 : ℚ) < a.betweenness n then 0.15 else 0)

/-- criminal_detector.py:232-248 `_find_handler_candidates`: keep nodes
whose degree lies in the widened window `[min-5, max+5]`; score each,
multiplying by 1.5 when the degree also lies in the strict configured
window; sort by score descending. -/
def find_handler_candidates (a : Analyzer) (cfg : Config)
    (potential_handlers : List Nat) : List (Nat × ℚ) :=
  sortDescBy Prod.snd
    ((potential_handlers.filter (fun n =>
        decide (cfg.handlers_min - 5 ≤ (a.degree n : ℤ) ∧
          (a.degree n : ℤ) ≤ cfg.handlers_max + 5))).map
      (fun n => (n,
        if cfg.handlers_min ≤ (a.degree n : ℤ) ∧ (a.degree n : ℤ) ≤ cfg.handlers_max
        then calculate_handler_score a cfg n * 1.5
        else calculate_handler_score a cfg n)))

/-- criminal_detector.py:400-418 `_score_geographic_pattern` (the
`middlemen_ids` parameter of the source is unused there). -/
def score_geographic_pattern (a : Analyzer) (cfg : Config)
    (employee_id : Nat) (handler_ids : List Nat) (leader_id : Nat) : ℚ :=
  (if a.city employee_id ∈ cfg.large_cities then 5 else 0) +
    (handler_ids.map (fun h =>
      if a.city h ∈ cfg.large_cities then (3 : ℚ) else 0)).sum +
    (if a.city leader_id ∈ cfg.large_cities then 5 else 0)

/-- criminal_detector.py:345-370 `_score_scenario_a_configuration`. -/
def score_scenario_a_configuration (a : Analyzer) (cfg : Config)
    (employee_id : Nat) (handler_ids : List Nat) (boris_id leader_id : Nat) : ℚ :=
  (if 35 ≤ a.degree employee_id ∧ a.degree employee_id ≤ 45 then 20 else 0) +
    (handler_ids.map (fun h =>
      if 30 ≤ a.degree h ∧ a.degree h ≤ 40 then (10 : ℚ) else 0)).sum +
    (if 20 ≤ a.degree boris_id ∧ a.degree boris_id ≤ 50 then 15 else 0) +
    (if (0.01 : ℚ) < a.betweenness boris_id then 15 else 0) +
    (if 100 ≤ a.degree leader_id then 20 else 0) +
    score_geographic_pattern a cfg employee_id handler_ids leader_id

/-- criminal_detector.py:372-398 `_score_scenario_b_configuration`. -/
def score_scenario_b_configuration (a : Analyzer) (cfg : Config)
    (employee_id : Nat) (handler_ids middlemen_ids : List Nat) (leader_id : Nat) : ℚ :=
  (if 35 ≤ a.degree employee_id ∧ a.degree employee_id ≤ 45 then 20 else 0) +
    (handler_ids.map (fun h =>
      if 30 ≤ a.degree h ∧ a.degree h ≤ 40 then (10 : ℚ) else 0)).sum +
    (middlemen_ids.map (fun m =>
      (if 20 ≤ a.degree m ∧ a.degree m ≤ 60 then (5 : ℚ) else 0) +
        (if (0.01 : ℚ) < a.betweenness m then (5 : ℚ) else 0))).sum +
    (if 100 ≤ a.degree leader_id then 20 else 0) +
    score_geographic_pattern a cfg employee_id handler_ids leader_id

/-- A recorded Scenario A result dict (criminal_detector.py:148-155). -/
structure ConfigurationA where
  employee : Nat
  handlers : List Nat
  boris : Nat
  fearless_leader : Nat
  score : ℚ
deriving DecidableEq

/-- A recorded Scenario B result dict (criminal_detector.py:216-225). -/
structure ConfigurationB where
  employee : Nat
  handlers : List Nat
  boris : Nat
  morris : Nat
  horace : Nat
  fearless_leader : Nat
  score : ℚ
deriving DecidableEq

/-- `itertools.combinations(l, 3)`: all 3-element subsequences of `l`
(each keeps the relative order of `l`; enumeration order is irrelevant
to every property proved below). -/
def combinations3 {α : Type*} (l : List α) : List (List α) :=
  List.sublistsLen 3 l

/-- criminal_detector.py:115-122: the `potential_boris` list for one
handler triple — `(neighbor, betweenness)` for every employee neighbor
outside the chosen handlers with betweenness > 0.001, sorted by
betweenness descending. -/
def potential_boris_list (a : Analyzer)
    (employee_neighbors handler_ids : List Nat) : List (Nat × ℚ) :=
  sortDescBy Prod.snd
    ((employee_neighbors.filter (fun n =>
        decide (n ∉ handler_ids ∧ (0.001 : ℚ) < a.betweenness n))).map
      (fun n => (n, a.betweenness n)))

/-- criminal_detector.py:127-155: the inner Scenario A loop for one
handler triple.  Each of the top-5 boris candidates is dropped when it
equals the employee (line 130) or has degree > 80 or betweenness
< 0.001 (line 137); otherwise a leader is searched among its neighbors
excluding handlers and employee, and a configuration is recorded when
one is found.  Python's `if leader_candidate:` (line 143) is falsy both
for `None` and for node id 0, hence the extra `leader = 0` test. -/
def record_scenario_a (a : Analyzer) (cfg : Config) (employee_id : Nat)
    (employee_neighbors handler_ids : List Nat) : List ConfigurationA :=
  ((potential_boris_list a employee_neighbors handler_ids).take 5).filterMap
    (fun bc =>
      if bc.1 = employee_id then none
      else if 80 < a.degree bc.1 ∨ a.betweenness bc.1 < 0.001 then none
      else
        match find_fearless_leader a cfg (a.adj bc.1) (handler_ids ++ [employee_id]) with
        | some leader =>
          if leader = 0 then none
          else some ⟨employee_id, handler_ids, bc.1, leader,
            score_scenario_a_configuration a cfg employee_id handler_ids bc.1 leader⟩
        | none => none)

/-- criminal_detector.py:106-156: all configurations recorded by the
Scenario A enumeration over 3-combinations of the top-10 handler
candidates (`all_valid_results` just before line 157's sort). -/
def valid_configurations_a (a : Analyzer) (cfg : Config) (employee_id : Nat) :
    List ConfigurationA :=
  (combinations3 ((find_handler_candidates a cfg (a.adj employee_id)).take 10)).flatMap
    (fun combo => record_scenario_a a cfg employee_id (a.adj employee_id) (combo.map Prod.fst))

/-- criminal_detector.py:96-166 `detect_scenario_a`: empty when fewer
than 3 handler candidates; otherwise the recorded configurations sorted
by score descending, truncated to the top 3. -/
def detect_scenario_a (a : Analyzer) (cfg : Config) (employee_id : Nat) :
    List ConfigurationA :=
  if (find_handler_candidates a cfg (a.adj employee_id)).length < 3 then []
  else (sortDescBy ConfigurationA.score (valid_configurations_a a cfg employee_id)).take 3

/-- criminal_detector.py:184-195: the `middlemen` list for one handler
triple — for each handler, the best admissible middleman among its
neighbors excluding the employee and the chosen handlers, kept only
when the search returns a (truthy, i.e. nonzero) candidate. -/
def middlemen_for (a : Analyzer) (cfg : Config) (employee_id : Nat)
    (handler_ids : List Nat) : List Nat :=
  handler_ids.filterMap (fun handler_id =>
    match find_best_middleman_for_handler a cfg ((a.adj handler_id).filter (fun n =>
      decide (n ≠ employee_id ∧ n ∉ handler_ids))) with
    | some m => if m = 0 then none else some m
    | none => none)

/-- criminal_detector.py:200-205: the leader pool for Scenario B — the
intersection of the three middlemen's neighbor sets (modelled as nested
filters over the first middleman's neighbor list) minus the exclusion
set `handlers + [employee] + middlemen`. -/
def leader_pool_b (a : Analyzer) (m0 m1 m2 : Nat) (exclude_set : List Nat) : List Nat :=
  (((a.adj m0).filter (fun n => decide (n ∈ a.adj m1))).filter
    (fun n => decide (n ∈ a.adj m2))).filter (fun n => decide (n ∉ exclude_set))

/-- criminal_detector.py:181-225: the Scenario B loop body for one
handler triple.  It requires exactly 3 middlemen with no duplicates
(line 197: `len(middlemen) != 3 or len(set(middlemen)) != 3`), builds
the common-neighbor leader pool minus the exclusion set, and records a
configuration when a (truthy) leader is found. -/
def record_scenario_b (a : Analyzer) (cfg : Config) (employee_id : Nat)
    (handler_ids : List Nat) : Option ConfigurationB :=
  match middlemen_for a cfg employee_id handler_ids with
  | [m0, m1, m2] =>
    if ([m0, m1, m2] : List Nat).dedup.length = 3 then
      match find_fearless_leader a cfg
        (leader_pool_b a m0 m1 m2 (handler_ids ++ [employee_id] ++ [m0, m1, m2]))
        (handler_ids ++ [employee_id] ++ [m0, m1, m2]) with
      | some leader =>
        if leader = 0 then none
        else some ⟨employee_id, handler_ids, m0, m1, m2, leader,
          score_scenario_b_configuration a cfg employee_id handler_ids [m0, m1, m2] leader⟩
      | none => none
    else none
  | _ => none

/-- All configurations the Scenario B enumeration records (those that
reach criminal_detector.py:214's score comparison). -/
def valid_configurations_b (a : Analyzer) (cfg : Config) (employee_id : Nat) :
    List ConfigurationB :=
  (combinations3 ((find_handler_candidates a cfg (a.adj employee_id)).take 10)).filterMap
    (fun combo => record_scenario_b a cfg employee_id (combo.map Prod.fst))

/-- criminal_detector.py:168-230 `detect_scenario_b`: `None` when fewer
than 3 handler candidates; otherwise the running-best scan (initial
best score 0, strict `>` comparison, line 178-214) over the recorded
configurations in enumeration order. -/
def detect_scenario_b (a : Analyzer) (cfg : Config) (employee_id : Nat) :
    Option ConfigurationB :=
  if (find_handler_candidates a cfg (a.adj employee_id)).length < 3 then none
  else (bestBy (fun _ => True) ConfigurationB.score (valid_configurations_b a cfg employee_id)).1

/-- The bundle returned by `detect_all_patterns`
(criminal_detector.py:23-42); the two dicts keyed by employee id are
modelled as association lists in insertion order. -/
structure DetectionResults where
  scenario_a : List (Nat × List ConfigurationA)
  scenario_b : List (Nat × ConfigurationB)
  employee_candidates : List (Nat × ℚ)

/-- criminal_detector.py:18-42 `detect_all_patterns`: run both scenario
searches for the first five employee candidates; an employee gets a
`scenario_a` entry only when its result list is nonempty (`if
scenario_a_results:`) and a `scenario_b` entry only when its result is
not `None` (`if scenario_b_result:`, never an empty dict). -/
def detect_all_patterns (a : Analyzer) (cfg : Config) : DetectionResults :=
  let employee_candidates := identify_employee_candidates a cfg
  { scenario_a := (employee_candidates.take 5).filterMap (fun ec =>
      let r := detect_scenario_a a cfg ec.1
      if r = [] then none else some (ec.1, r)),
    scenario_b := (employee_candidates.take 5).filterMap (fun ec =>
      match detect_scenario_b a cfg ec.1 with
      | some r => some (ec.1, r)
      | none => none),
    employee_candidates := employee_candidates }

/-- network_analysis.py:126-133 `get_top_nodes_by_metric`: the metrics
dict is an association list from metric name to that metric's per-node
table; an unknown name yields `[]`, a known one yields its `(node,
value)` items sorted by value descending, truncated to `top_n`. -/
def get_top_nodes_by_metric (metrics : List (String × List (Nat × ℚ)))
    (metric_name : String) (top_n : Nat) : List (Nat × ℚ) :=
  match metrics.lookup metric_name with
  | none => []
  | some metric_data => (sortDescBy Prod.snd metric_data).take top_n

theorem mem_sort_filter_map {l : List Nat} {p : Nat → Prop} [DecidablePred p]
    {g : Nat → ℚ} {n : Nat} {s : ℚ} :
    (n, s) ∈ sortDescBy Prod.snd ((l.filter (fun m => decide (p m))).map (fun m => (m, g m))) ↔
      n ∈ l ∧ p n ∧ s = g n := by
  rw [mem_sortDescBy, List.mem_map]
  constructor
  · rintro ⟨m, hm, heq⟩
    rw [List.mem_filter] at hm
    rcases Prod.mk.injEq .. ▸ heq with ⟨h1, h2⟩
    subst h1
    exact ⟨hm.1, decide_eq_true_iff.mp hm.2, h2.symm⟩
  · rintro ⟨hn, hpn, hs⟩
    exact ⟨n, List.mem_filter.mpr ⟨hn, decide_eq_true_iff.mpr hpn⟩, by rw [hs]⟩

/-- **C1.** In `_find_fearless_leader`, the degree and betweenness
thresholds are the entries at index
`min(max(1, ⌊0.02·N⌋), N − 1)` of the respective descending-sorted
value lists over all `N` graph nodes (so the rank is
`max(1, ⌊0.02·N⌋)`, clamped to the last index when it would leave the
list); the cutoff count is 2 for N = 100 and clamps to 1 for N = 1 and
N = 49. -/
theorem leader_threshold_rank_spec :
    (∀ a : Analyzer,
      degree_threshold_top2 a =
        (sortDescBy id (a.nodes.map a.degree)).getD
          (min (max 1 (a.nodes.length * 2 / 100)) (a.nodes.length - 1)) 0 ∧
      betweenness_threshold_top2 a =
        (sortDescBy id (a.nodes.map a.betweenness)).getD
          (min (max 1 (a.nodes.length * 2 / 100)) (a.nodes.length - 1)) 0) ∧
    top_2_percent_count 100 = 2 ∧ top_2_percent_count 1 = 1 ∧
    top_2_percent_count 49 = 1 := by
  refine ⟨fun a => ⟨?_, ?_⟩, by decide, by decide, by decide⟩
  · rw [degree_threshold_top2, top_2_percent_count]
    rw [sortDescBy_length, List.length_map]
  · rw [betweenness_threshold_top2, top_2_percent_count]
    rw [sortDescBy_length, List.length_map]

/-- **C3.** `identify_employee_candidates` returns exactly the graph
nodes with degree in `[E − T, E + T]` (both endpoints included), each
paired with the composite score
`0.4/(1 + |d − E|) + 0.3·[large city] + 0.2·[0.001 < betweenness <
0.05] + 0.1·[0.2 < clustering < 0.6]`, sorted descending by score. -/
theorem employee_candidates_spec :
    ∀ (a : Analyzer) (cfg : Config),
      (∀ n s, (n, s) ∈ identify_employee_candidates a cfg ↔
        n ∈ a.nodes ∧
        cfg.employee_expected_contacts - cfg.employee_tolerance ≤ (a.degree n : ℤ) ∧
        (a.degree n : ℤ) ≤ cfg.employee_expected_contacts + cfg.employee_tolerance ∧
        s = 0.4 / (1 + ((|(a.degree n : ℤ) - cfg.employee_expected_contacts| : ℤ) : ℚ)) +
            (if a.city n ∈ cfg.large_cities then 0.3 else 0) +
            (if (0.001 : ℚ) < a.betweenness n ∧ a.betweenness n < 0.05 then 0.2 else 0) +
            (if (0.2 : ℚ) < a.clustering n ∧ a.clustering n < 0.6 then 0.1 else 0)) ∧
      List.Sorted (fun x y : Nat × ℚ => y.2 ≤ x.2) (identify_employee_candidates a cfg) := by
  intro a cfg
  have hscore : ∀ n, calculate_employee_score a cfg n =
      0.4 / (1 + ((|(a.degree n : ℤ) - cfg.employee_expected_contacts| : ℤ) : ℚ)) +
        (if a.city n ∈ cfg.large_cities then 0.3 else 0) +
        (if (0.001 : ℚ) < a.betweenness n ∧ a.betweenness n < 0.05 then 0.2 else 0) +
        (if (0.2 : ℚ) < a.clustering n ∧ a.clustering n < 0.6 then 0.1 else 0) := by
    intro n
    rw [calculate_employee_score]
    have : (1 / (1 + ((|(a.degree n : ℤ) - cfg.employee_expected_contacts| : ℤ) : ℚ))) * 0.4 =
        0.4 / (1 + ((|(a.degree n : ℤ) - cfg.employee_expected_contacts| : ℤ) : ℚ)) := by
      rw [one_div, div_eq_mul_inv, mul_comm]
    rw [this]
  constructor
  · intro n s
    rw [identify_employee_candidates]
    rw [mem_sort_filter_map]
    rw [hscore n]
    tauto
  · exact sortDescBy_sorted Prod.snd _

/-- **C4.** `_find_handler_candidates` returns exactly the given nodes
with degree in the widened window `[Hmin − 5, Hmax + 5]`, sorted
descending by score, where the score is
`0.5 + 0.4·[25 ≤ d ≤ 45] + 0.2·[large city] + (0.3 if betweenness >
0.005, else 0.15 if betweenness > 0.001)`, the whole multiplied by 1.5
exactly when the degree also lies in the strict configured window
`[Hmin, Hmax]`. -/
theorem handler_candidates_spec :
    ∀ (a : Analyzer) (cfg : Config) (potential_handlers : List Nat),
      (∀ n s, (n, s) ∈ find_handler_candidates a cfg potential_handlers ↔
        n ∈ potential_handlers ∧
        cfg.handlers_min - 5 ≤ (a.degree n : ℤ) ∧
        (a.degree n : ℤ) ≤ cfg.handlers_max + 5 ∧
        s = (if cfg.handlers_min ≤ (a.degree n : ℤ) ∧ (a.degree n : ℤ) ≤ cfg.handlers_max
              then (1.5 : ℚ) else 1) *
            (0.5 + (if 25 ≤ a.degree n ∧ a.degree n ≤ 45 then 0.4 else 0) +
              (if a.city n ∈ cfg.large_cities then 0.2 else 0) +
              (if (0.005 : ℚ) < a.betweenness n then 0.3
                else if (0.001 : ℚ) < a.betweenness n then 0.15 else 0))) ∧
      List.Sorted (fun x y : Nat × ℚ => y.2 ≤ x.2)
        (find_handler_candidates a cfg potential_handlers) := by
  intro a cfg potential_handlers
  have hscore : ∀ n,
      (if cfg.handlers_min ≤ (a.degree n : ℤ) ∧ (a.degree n : ℤ) ≤ cfg.handlers_max
        then calculate_handler_score a cfg n * 1.5
        else calculate_handler_score a cfg n) =
      (if cfg.handlers_min ≤ (a.degree n : ℤ) ∧ (a.degree n : ℤ) ≤ cfg.handlers_max
        then (1.5 : ℚ) else 1) *
      (0.5 + (if 25 ≤ a.degree n ∧ a.degree n ≤ 45 then 0.4 else 0) +
        (if a.city n ∈ cfg.large_cities then 0.2 else 0) +
        (if (0.005 : ℚ) < a.betweenness n then 0.3
          else if (0.001 : ℚ) < a.betweenness n then 0.15 else 0)) := by
    intro n
    rw [calculate_handler_score]
    split
    · rw [mul_comm]
    · rw [one_mul]
  constructor
  · intro n s
    rw [find_handler_candidates]
    rw [show (fun n => (n,
        if cfg.handlers_min ≤ (a.degree n : ℤ) ∧ (a.degree n : ℤ) ≤ cfg.handlers_max
        then calculate_handler_score a cfg n * 1.5
        else calculate_handler_score a cfg n)) = (fun n => (n,
        (if cfg.handlers_min ≤ (a.degree n : ℤ) ∧ (a.degree n : ℤ) ≤ cfg.handlers_max
          then (1.5 : ℚ) else 1) *
        (0.5 + (if 25 ≤ a.degree n ∧ a.degree n ≤ 45 then 0.4 else 0) +
          (if a.city n ∈ cfg.large_cities then 0.2 else 0) +
          (if (0.005 : ℚ) < a.betweenness n then 0.3
            else if (0.001 : ℚ) < a.betweenness n then 0.15 else 0)))) from
      funext fun n => by rw [hscore n]]
    rw [mem_sort_filter_map]
    tauto
  · exact sortDescBy_sorted Prod.snd _

/-- **C2.** For every pool and exclusion set (under the standing facts
that betweenness centrality is nonnegative and the configured
`min_contacts` is at least 1), `_find_fearless_leader` returns a
qualifying, non-excluded pool node of maximal score — where a node
qualifies iff `degree ≥ min_contacts` and (`degree ≥ degree-threshold`
or `betweenness ≥ betweenness-threshold`) — and returns `None` exactly
when no pool node outside the exclusion set qualifies (in particular
when the pool is empty). -/
theorem fearless_leader_spec :
    ∀ (a : Analyzer) (cfg : Config) (potential_leaders exclude_ids : List Nat),
      (∀ n, 0 ≤ a.betweenness n) → 1 ≤ cfg.leader_min_contacts →
      (∀ b, find_fearless_leader a cfg potential_leaders exclude_ids = some b →
        b ∈ potential_leaders ∧ b ∉ exclude_ids ∧ leader_qualifies a cfg b ∧
        ∀ n ∈ potential_leaders, n ∉ exclude_ids → leader_qualifies a cfg n →
          leader_score a cfg n ≤ leader_score a cfg b) ∧
      (find_fearless_leader a cfg potential_leaders exclude_ids = none ↔
        ∀ n ∈ potential_leaders, n ∉ exclude_ids → ¬ leader_qualifies a cfg n) := by
  intro a cfg potential_leaders exclude_ids hbetw hmin
  have hpos : ∀ n, leader_qualifies a cfg n → 0 < leader_score a cfg n := by
    intro n hq
    have hd : (1 : ℤ) ≤ (a.degree n : ℤ) := le_trans hmin hq.1
    have hd' : (1 : ℚ) ≤ (a.degree n : ℚ) := by exact_mod_cast hd
    have hb := hbetw n
    simp only [leader_score]
    split
    · nlinarith
    · nlinarith
  constructor
  · intro b hb
    rw [find_fearless_leader] at hb
    obtain ⟨hmem, ⟨hnex, hq⟩, _, hmax⟩ := bestBy_eq_some hb
    exact ⟨hmem, hnex, hq, fun n hn hn2 hn3 => hmax n hn ⟨hn2, hn3⟩⟩
  · rw [find_fearless_leader]
    rw [bestBy_eq_none_iff _ _ _ (fun n _ hp => hpos n hp.2)]
    simp only [not_and]

/-- **C9 counterexample.** The top-N-by-metric helper does *not* signal
a distinguishable "unknown metric" condition: for an unknown metric
name it returns `[]`, which is the very same value a *known* metric
with an empty table (such as `eigenvector_centrality` after
non-convergence, network_analysis.py:54-56) returns — the caller cannot
tell the two apart. -/
theorem top_nodes_unknown_metric_counterexample :
    get_top_nodes_by_metric [("eigenvector_centrality", [])] "unknown_metric" 10 = [] ∧
    get_top_nodes_by_metric [("eigenvector_centrality", [])] "eigenvector_centrality" 10 = [] ∧
    get_top_nodes_by_metric [("eigenvector_centrality", [])] "unknown_metric" 10 =
      get_top_nodes_by_metric [("eigenvector_centrality", [])] "eigenvector_centrality" 10 := by
  exact ⟨rfl, rfl, rfl⟩

/-- **C9 (amended).** `get_top_nodes_by_metric` returns the plain empty
list for an unknown metric name (the same value as a normal empty
result, not a distinguishable error outcome); for a known metric name
it returns the top `n` `(node, value)` pairs sorted descending by
value. -/
theorem top_nodes_by_metric_spec :
    ∀ (metrics : List (String × List (Nat × ℚ))) (name : String) (n : Nat),
      (metrics.lookup name = none → get_top_nodes_by_metric metrics name n = []) ∧
      (∀ d, metrics.lookup name = some d →
        get_top_nodes_by_metric metrics name n = (sortDescBy Prod.snd d).take n ∧
        List.Sorted (fun x y : Nat × ℚ => y.2 ≤ x.2)
          (get_top_nodes_by_metric metrics name n)) := by
  intro metrics name n
  constructor
  · intro h
    rw [get_top_nodes_by_metric, h]
  · intro d hd
    rw [get_top_nodes_by_metric, hd]
    refine ⟨rfl, ?_⟩
    exact List.Pairwise.sublist (List.take_sublist n _) (sortDescBy_sorted Prod.snd d)

theorem nodup_of_dedup_length {l : List Nat} (h : l.dedup.length = l.length) : l.Nodup := by
  have hs := List.dedup_sublist l
  have heq := hs.eq_of_length h
  rw [← heq]
  exact List.nodup_dedup l

theorem filterMap_full {α β : Type*} {g : α → Option β} {l : List α}
    (h : (l.filterMap g).length = l.length) : ∀ x ∈ l, (g x).isSome := by
  induction l with
  | nil => simp
  | cons x xs ih =>
    intro y hy
    cases hg : g x with
    | none =>
      rw [List.filterMap_cons, hg] at h
      have := List.length_filterMap_le g xs
      simp at h
      omega
    | some b =>
      rcases List.mem_cons.mp hy with hy | hy
      · subst hy; rw [hg]; rfl
      · apply ih ?_ y hy
        rw [List.filterMap_cons, hg] at h
        simpa using h

theorem map_fst_map_pair {l : List Nat} {g : Nat → ℚ} :
    (l.map (fun n => (n, g n))).map Prod.fst = l := by
  rw [List.map_map]
  exact List.map_id l

theorem handler_candidates_fst_perm (a : Analyzer) (cfg : Config) (pot : List Nat) :
    List.Perm ((find_handler_candidates a cfg pot).map Prod.fst)
      (pot.filter (fun n => decide (cfg.handlers_min - 5 ≤ (a.degree n : ℤ) ∧
        (a.degree n : ℤ) ≤ cfg.handlers_max + 5))) := by
  rw [find_handler_candidates]
  have h1 := List.Perm.map Prod.fst (sortDescBy_perm Prod.snd
    ((pot.filter (fun n => decide (cfg.handlers_min - 5 ≤ (a.degree n : ℤ) ∧
        (a.degree n : ℤ) ≤ cfg.handlers_max + 5))).map
      (fun n => (n,
        if cfg.handlers_min ≤ (a.degree n : ℤ) ∧ (a.degree n : ℤ) ≤ cfg.handlers_max
        then calculate_handler_score a cfg n * 1.5
        else calculate_handler_score a cfg n))))
  rw [map_fst_map_pair] at h1
  exact h1

theorem mem_handler_candidates_fst {a : Analyzer} {cfg : Config} {pot : List Nat} {x : Nat}
    (hx : x ∈ (find_handler_candidates a cfg pot).map Prod.fst) : x ∈ pot :=
  (List.mem_filter.mp ((handler_candidates_fst_perm a cfg pot).mem_iff.mp hx)).1

theorem nodup_handler_candidates_fst {a : Analyzer} {cfg : Config} {pot : List Nat}
    (h : pot.Nodup) : ((find_handler_candidates a cfg pot).map Prod.fst).Nodup :=
  (handler_candidates_fst_perm a cfg pot).symm.nodup (h.filter _)

theorem combo_fst_facts {a : Analyzer} {cfg : Config} {e : Nat} {combo : List (Nat × ℚ)}
    (hcombo : combo ∈ combinations3 ((find_handler_candidates a cfg (a.adj e)).take 10)) :
    (combo.map Prod.fst).length = 3 ∧
    (∀ x ∈ combo.map Prod.fst, x ∈ a.adj e) ∧
    ((a.adj e).Nodup → (combo.map Prod.fst).Nodup) := by
  obtain ⟨hsub, hlen⟩ := List.mem_sublistsLen.mp hcombo
  have hsub2 : (combo.map Prod.fst).Sublist
      ((find_handler_candidates a cfg (a.adj e)).map Prod.fst) :=
    List.Sublist.trans (List.Sublist.map _ hsub)
      (List.Sublist.map _ (List.take_sublist 10 _))
  refine ⟨by rw [List.length_map, hlen], ?_, ?_⟩
  · exact fun x hx => mem_handler_candidates_fst (hsub2.subset hx)
  · exact fun hnd => hsub2.nodup (nodup_handler_candidates_fst hnd)

theorem record_scenario_a_mem {a : Analyzer} {cfg : Config} {employee_id : Nat}
    {neighbors hid : List Nat} {c : ConfigurationA}
    (hc : c ∈ record_scenario_a a cfg employee_id neighbors hid) :
    c.employee = employee_id ∧ c.handlers = hid ∧
    c.boris ∈ ((potential_boris_list a neighbors hid).take 5).map Prod.fst ∧
    c.boris ∉ hid ∧ c.boris ∈ neighbors ∧ c.boris ≠ employee_id ∧
    a.degree c.boris ≤ 80 ∧ (0.001 : ℚ) < a.betweenness c.boris ∧
    find_fearless_leader a cfg (a.adj c.boris) (hid ++ [employee_id]) =
      some c.fearless_leader ∧
    c.score = score_scenario_a_configuration a cfg employee_id hid c.boris
      c.fearless_leader := by
  rw [record_scenario_a] at hc
  obtain ⟨bc, hbc, hg⟩ := List.mem_filterMap.mp hc
  have hbc' := List.mem_of_mem_take hbc
  rw [potential_boris_list, mem_sortDescBy] at hbc'
  obtain ⟨n, hn, heq⟩ := List.mem_map.mp hbc'
  rw [List.mem_filter, decide_eq_true_iff] at hn
  by_cases h1 : bc.1 = employee_id
  · rw [if_pos h1] at hg; cases hg
  rw [if_neg h1] at hg
  by_cases h2 : 80 < a.degree bc.1 ∨ a.betweenness bc.1 < 0.001
  · rw [if_pos h2] at hg; cases hg
  rw [if_neg h2] at hg
  push_neg at h2
  cases hfl : find_fearless_leader a cfg (a.adj bc.1) (hid ++ [employee_id]) with
  | none => rw [hfl] at hg; cases hg
  | some leader =>
    rw [hfl] at hg
    dsimp only at hg
    by_cases h3 : leader = 0
    · rw [if_pos h3] at hg; cases hg
    rw [if_neg h3] at hg
    have hceq := Option.some.inj hg
    subst hceq
    have hfst : bc.1 = n := by rw [← heq]
    refine ⟨rfl, rfl, List.mem_map.mpr ⟨bc, hbc, rfl⟩, ?_, ?_, h1, h2.1, ?_, hfl, rfl⟩
    · show bc.1 ∉ hid
      rw [hfst]; exact hn.2.1
    · show bc.1 ∈ neighbors
      rw [hfst]; exact hn.1
    · show (0.001 : ℚ) < a.betweenness bc.1
      rw [hfst]; exact hn.2.2

theorem mem_detect_scenario_a {a : Analyzer} {cfg : Config} {e : Nat} {c : ConfigurationA}
    (hc : c ∈ detect_scenario_a a cfg e) : c ∈ valid_configurations_a a cfg e := by
  rw [detect_scenario_a] at hc
  split at hc
  · cases hc
  · exact mem_sortDescBy.mp (List.mem_of_mem_take hc)

/-- **C7.** `detect_scenario_a` returns `[]` when fewer than 3 handler
candidates exist, and otherwise the list of all recorded configurations
sorted descending by score and truncated to the top 3; every recorded
configuration draws its middleman from the top 5 (by betweenness) of
the employee's neighbors outside the chosen handler triple with
betweenness > 0.001, is distinct from the employee, has degree ≤ 80 and
betweenness > 0.001 (so no considered candidate with betweenness
≤ 0.001 is ever recorded). -/
theorem scenario_a_search_spec :
    ∀ (a : Analyzer) (cfg : Config) (employee_id : Nat),
      ((find_handler_candidates a cfg (a.adj employee_id)).length < 3 →
        detect_scenario_a a cfg employee_id = []) ∧
      (3 ≤ (find_handler_candidates a cfg (a.adj employee_id)).length →
        detect_scenario_a a cfg employee_id =
          (sortDescBy ConfigurationA.score (valid_configurations_a a cfg employee_id)).take 3) ∧
      List.Sorted (fun x y : ConfigurationA => y.score ≤ x.score)
        (detect_scenario_a a cfg employee_id) ∧
      (detect_scenario_a a cfg employee_id).length ≤ 3 ∧
      (∀ c ∈ detect_scenario_a a cfg employee_id,
        c ∈ valid_configurations_a a cfg employee_id) ∧
      (∀ c ∈ valid_configurations_a a cfg employee_id,
        ∃ combo ∈ combinations3
            ((find_handler_candidates a cfg (a.adj employee_id)).take 10),
          c.employee = employee_id ∧ c.handlers = combo.map Prod.fst ∧
          c.boris ∈ ((potential_boris_list a (a.adj employee_id)
            (combo.map Prod.fst)).take 5).map Prod.fst ∧
          c.boris ≠ employee_id ∧ a.degree c.boris ≤ 80 ∧
          (0.001 : ℚ) < a.betweenness c.boris) := by
  intro a cfg employee_id
  refine ⟨?_, ?_, ?_, ?_, fun c hc => mem_detect_scenario_a hc, ?_⟩
  · intro h
    rw [detect_scenario_a, if_pos h]
  · intro h
    rw [detect_scenario_a, if_neg (not_lt.mpr h)]
  · rw [detect_scenario_a]
    split
    · exact List.sorted_nil
    · exact List.Pairwise.sublist (List.take_sublist 3 _)
        (sortDescBy_sorted ConfigurationA.score _)
  · rw [detect_scenario_a]
    split
    · simp
    · simp [List.length_take]
  · intro c hc
    rw [valid_configurations_a] at hc
    obtain ⟨combo, hcombo, hrec⟩ := List.mem_flatMap.mp hc
    obtain ⟨he, hh, hb5, _, _, hne, hd, hbw, _, _⟩ := record_scenario_a_mem hrec
    exact ⟨combo, hcombo, he, hh, hh ▸ hb5, hne, hd, hbw⟩

theorem record_scenario_b_eq_some {a : Analyzer} {cfg : Config} {e : Nat}
    {hid : List Nat} {c : ConfigurationB}
    (hc : record_scenario_b a cfg e hid = some c) :
    c.employee = e ∧ c.handlers = hid ∧
    middlemen_for a cfg e hid = [c.boris, c.morris, c.horace] ∧
    ([c.boris, c.morris, c.horace] : List Nat).Nodup ∧
    find_fearless_leader a cfg
      (leader_pool_b a c.boris c.morris c.horace
        (hid ++ [e] ++ [c.boris, c.morris, c.horace]))
      (hid ++ [e] ++ [c.boris, c.morris, c.horace]) = some c.fearless_leader ∧
    c.score = score_scenario_b_configuration a cfg e hid
      [c.boris, c.morris, c.horace] c.fearless_leader := by
  rw [record_scenario_b] at hc
  split at hc
  · rename_i m0 m1 m2 heq
    split at hc
    · rename_i hdd
      split at hc
      · rename_i leader hfl
        split at hc
        · cases hc
        · have hcc := Option.some.inj hc
          subst hcc
          exact ⟨rfl, rfl, heq, nodup_of_dedup_length hdd, hfl, rfl⟩
      · cases hc
    · cases hc
  · cases hc

theorem mem_middlemen_for {a : Analyzer} {cfg : Config} {e : Nat} {hid : List Nat}
    {m : Nat} (hm : m ∈ middlemen_for a cfg e hid) : m ≠ e ∧ m ∉ hid := by
  rw [middlemen_for] at hm
  obtain ⟨h, hh, hg⟩ := List.mem_filterMap.mp hm
  cases hf : find_best_middleman_for_handler a cfg ((a.adj h).filter (fun n =>
      decide (n ≠ e ∧ n ∉ hid))) with
  | none => rw [hf] at hg; cases hg
  | some m' =>
    rw [hf] at hg
    dsimp only at hg
    by_cases h0 : m' = 0
    · rw [if_pos h0] at hg; cases hg
    · rw [if_neg h0] at hg
      have hmm := Option.some.inj hg
      subst hmm
      rw [find_best_middleman_for_handler] at hf
      obtain ⟨hmem, _, _, _⟩ := bestBy_eq_some hf
      rw [List.mem_filter, decide_eq_true_iff] at hmem
      exact hmem.2

theorem middlemen_for_length_full {a : Analyzer} {cfg : Config} {e : Nat}
    {hid : List Nat} (hlen : (middlemen_for a cfg e hid).length = hid.length) :
    ∀ h ∈ hid, (find_best_middleman_for_handler a cfg ((a.adj h).filter (fun n =>
      decide (n ≠ e ∧ n ∉ hid)))).isSome := by
  intro h hh
  have hfull := filterMap_full (g := fun handler_id =>
    match find_best_middleman_for_handler a cfg ((a.adj handler_id).filter (fun n =>
      decide (n ≠ e ∧ n ∉ hid))) with
    | some m => if m = 0 then none else some m
    | none => none) (l := hid) hlen h hh
  dsimp only at hfull
  cases hf : find_best_middleman_for_handler a cfg ((a.adj h).filter (fun n =>
      decide (n ≠ e ∧ n ∉ hid))) with
  | none => rw [hf] at hfull; simp at hfull
  | some m' => rfl

/-- **C5.** For every handler triple examined by the Scenario B search,
a configuration is recorded only if all three per-handler middleman
searches returned a candidate and the three middlemen are pairwise
distinct, and any triple whose derived middleman list contains a
duplicate is skipped (the loop body returns `None` for it), regardless
of whether the duplicates pass the admissibility filter. -/
theorem scenario_b_middlemen_distinct :
    ∀ (a : Analyzer) (cfg : Config) (employee_id : Nat) (handler_ids : List Nat),
      handler_ids.length = 3 →
      (∀ c, record_scenario_b a cfg employee_id handler_ids = some c →
        middlemen_for a cfg employee_id handler_ids = [c.boris, c.morris, c.horace] ∧
        ([c.boris, c.morris, c.horace] : List Nat).Nodup ∧
        ∀ h ∈ handler_ids,
          (find_best_middleman_for_handler a cfg ((a.adj h).filter (fun n =>
            decide (n ≠ employee_id ∧ n ∉ handler_ids)))).isSome) ∧
      (¬ (middlemen_for a cfg employee_id handler_ids).Nodup →
        record_scenario_b a cfg employee_id handler_ids = none) := by
  intro a cfg employee_id handler_ids hlen
  constructor
  · intro c hc
    obtain ⟨_, _, hmid, hnd, _, _⟩ := record_scenario_b_eq_some hc
    refine ⟨hmid, hnd, ?_⟩
    apply middlemen_for_length_full
    rw [hmid, hlen]
    rfl
  · intro hnd
    rw [record_scenario_b]
    split
    · rename_i m0 m1 m2 heq
      rw [if_neg]
      intro hdd
      exact hnd (by rw [heq]; exact nodup_of_dedup_length hdd)
    · rfl

theorem valid_configurations_b_nil {a : Analyzer} {cfg : Config} {e : Nat}
    (h : (find_handler_candidates a cfg (a.adj e)).length < 3) :
    valid_configurations_b a cfg e = [] := by
  rw [valid_configurations_b, List.eq_nil_iff_forall_not_mem]
  intro c hc
  obtain ⟨combo, hcombo, _⟩ := List.mem_filterMap.mp hc
  obtain ⟨hsub, hlen⟩ := List.mem_sublistsLen.mp hcombo
  have h3 : 3 ≤ ((find_handler_candidates a cfg (a.adj e)).take 10).length :=
    hlen ▸ hsub.length_le
  rw [List.length_take] at h3
  omega

/-- **C6 (amended).** `detect_scenario_b` returns a recorded
configuration of maximal score whenever it returns one; it returns
`None` exactly when no configuration is recorded or every recorded
configuration has score 0 (the code keeps a configuration only if its
score strictly exceeds the running best, which starts at 0 — so an
all-zero-score search yields `None` even though valid configurations
exist). -/
theorem scenario_b_best_configuration_spec :
    ∀ (a : Analyzer) (cfg : Config) (employee_id : Nat),
      (∀ c, detect_scenario_b a cfg employee_id = some c →
        c ∈ valid_configurations_b a cfg employee_id ∧
        ∀ c' ∈ valid_configurations_b a cfg employee_id, c'.score ≤ c.score) ∧
      (detect_scenario_b a cfg employee_id = none ↔
        ∀ c ∈ valid_configurations_b a cfg employee_id, c.score ≤ 0) := by
  intro a cfg employee_id
  rw [detect_scenario_b]
  split
  · rename_i hlt
    constructor
    · intro c hc
      cases hc
    · constructor
      · intro _ c hc
        rw [valid_configurations_b_nil hlt] at hc
        cases hc
      · intro _
        rfl
  · constructor
    · intro c hc
      obtain ⟨hmem, _, _, hmax⟩ := bestBy_eq_some hc
      exact ⟨hmem, fun c' hc' => hmax c' hc' trivial⟩
    · rw [bestBy_eq_none_iff_le]
      constructor
      · intro hle c hc
        exact hle c hc trivial
      · intro hle c hc _
        exact hle c hc

/-- **C10.** Assuming the graph is simple (no node appears in its own
neighbor list) and neighbor lists have no duplicates, every
configuration returned by the Scenario A search has its six role nodes
pairwise distinct (employee, three handlers, middleman, leader), and
every configuration returned by the Scenario B search has its eight
role nodes pairwise distinct (employee, three handlers, three
middlemen, leader). -/
theorem scenario_configurations_roles_distinct :
    ∀ (a : Analyzer) (cfg : Config) (employee_id : Nat),
      (∀ n, n ∉ a.adj n) → (∀ n, (a.adj n).Nodup) →
      (∀ c ∈ detect_scenario_a a cfg employee_id,
        c.handlers.length = 3 ∧
        (c.employee :: (c.handlers ++ [c.boris, c.fearless_leader])).Nodup) ∧
      (∀ c, detect_scenario_b a cfg employee_id = some c →
        c.handlers.length = 3 ∧
        (c.employee :: (c.handlers ++
          [c.boris, c.morris, c.horace, c.fearless_leader])).Nodup) := by
  intro a cfg e hsimple hnodup
  constructor
  · intro c hc
    have hv := mem_detect_scenario_a hc
    rw [valid_configurations_a] at hv
    obtain ⟨combo, hcombo, hrec⟩ := List.mem_flatMap.mp hv
    obtain ⟨he, hh, _, hb_H, hb_adj, hb_e, _, _, hfl, _⟩ := record_scenario_a_mem hrec
    obtain ⟨hHlen, hHadj, hHnodup⟩ := combo_fst_facts hcombo
    subst he
    rw [find_fearless_leader] at hfl
    obtain ⟨hl_pool, ⟨hl_ex, _⟩, _, _⟩ := bestBy_eq_some hfl
    have hl_H : c.fearless_leader ∉ combo.map Prod.fst :=
      fun hx => hl_ex (List.mem_append_left _ hx)
    have hl_e : c.fearless_leader ≠ c.employee := by
      intro hx
      exact hl_ex (List.mem_append_right _ (by rw [hx]; exact List.mem_singleton_self _))
    have hl_b : c.fearless_leader ≠ c.boris :=
      fun hx => hsimple c.boris (hx ▸ hl_pool)
    have he_H : c.employee ∉ combo.map Prod.fst :=
      fun hx => hsimple c.employee (hHadj _ hx)
    refine ⟨by rw [hh, hHlen], ?_⟩
    rw [hh]
    rw [List.nodup_cons, List.nodup_append]
    refine ⟨?_, hHnodup (hnodup c.employee), ?_, ?_⟩
    · rw [List.mem_append]
      rintro (hx | hx)
      · exact he_H hx
      · rcases List.mem_cons.mp hx with hx | hx
        · exact hb_e hx.symm
        · rcases List.mem_cons.mp hx with hx | hx
          · exact hl_e hx.symm
          · cases hx
    · rw [List.nodup_cons]
      refine ⟨?_, List.nodup_cons.mpr ⟨List.not_mem_nil _, List.nodup_nil⟩⟩
      rw [List.mem_cons]
      rintro (hx | hx)
      · exact hl_b hx.symm
      · cases hx
    · rw [List.disjoint_left]
      intro x hx hmem
      rcases List.mem_cons.mp hmem with hxx | hxx
      · exact hb_H (hxx ▸ hx)
      · rcases List.mem_cons.mp hxx with hxx | hxx
        · exact hl_H (hxx ▸ hx)
        · cases hxx
  · intro c hc
    rw [detect_scenario_b] at hc
    split at hc
    · cases hc
    · obtain ⟨hmem, _, _, _⟩ := bestBy_eq_some hc
      rw [valid_configurations_b] at hmem
      obtain ⟨combo, hcombo, hrec⟩ := List.mem_filterMap.mp hmem
      obtain ⟨he, hh, hmid, hmnd, hfl, _⟩ := record_scenario_b_eq_some hrec
      obtain ⟨hHlen, hHadj, hHnodup⟩ := combo_fst_facts hcombo
      subst he
      have hb_mem : c.boris ∈ middlemen_for a cfg c.employee (combo.map Prod.fst) := by
        rw [hmid]; exact List.mem_cons_self _ _
      have hmo_mem : c.morris ∈ middlemen_for a cfg c.employee (combo.map Prod.fst) := by
        rw [hmid]; exact List.mem_cons_of_mem _ (List.mem_cons_self _ _)
      have hho_mem : c.horace ∈ middlemen_for a cfg c.employee (combo.map Prod.fst) := by
        rw [hmid]
        exact List.mem_cons_of_mem _ (List.mem_cons_of_mem _ (List.mem_cons_self _ _))
      obtain ⟨hb_e, hb_H⟩ := mem_middlemen_for hb_mem
      obtain ⟨hmo_e, hmo_H⟩ := mem_middlemen_for hmo_mem
      obtain ⟨hho_e, hho_H⟩ := mem_middlemen_for hho_mem
      rw [find_fearless_leader] at hfl
      obtain ⟨_, ⟨hl_ex, _⟩, _, _⟩ := bestBy_eq_some hfl
      have hl_H : c.fearless_leader ∉ combo.map Prod.fst := fun hx =>
        hl_ex (List.mem_append_left _ (List.mem_append_left _ hx))
      have hl_e : c.fearless_leader ≠ c.employee := fun hx =>
        hl_ex (List.mem_append_left _ (List.mem_append_right _
          (by rw [hx]; exact List.mem_singleton_self _)))
      have hl_ms : c.fearless_leader ∉ ([c.boris, c.morris, c.horace] : List Nat) :=
        fun hx => hl_ex (List.mem_append_right _ hx)
      have he_H : c.employee ∉ combo.map Prod.fst :=
        fun hx => hsimple c.employee (hHadj _ hx)
      refine ⟨by rw [hh, hHlen], ?_⟩
      rw [hh]
      rw [List.nodup_cons, List.nodup_append]
      refine ⟨?_, hHnodup (hnodup c.employee), ?_, ?_⟩
      · rw [List.mem_append]
        rintro (hx | hx)
        · exact he_H hx
        · rcases List.mem_cons.mp hx with hx | hx
          · exact hb_e hx.symm
          · rcases List.mem_cons.mp hx with hx | hx
            · exact hmo_e hx.symm
            · rcases List.mem_cons.mp hx with hx | hx
              · exact hho_e hx.symm
              · rcases List.mem_cons.mp hx with hx | hx
                · exact hl_e hx.symm
                · cases hx
      · simp only [List.nodup_cons, List.mem_cons, List.not_mem_nil, or_false,
          List.nodup_nil, and_true, not_or, not_false_iff] at hmnd
        simp only [List.mem_cons, List.not_mem_nil, or_false, not_or,
          not_false_iff] at hl_ms
        simp only [List.nodup_cons, List.mem_cons, List.not_mem_nil, or_false,
          List.nodup_nil, and_true, not_or, not_false_iff]
        exact ⟨⟨hmnd.1.1, hmnd.1.2, fun hx => hl_ms.1 hx.symm⟩,
          ⟨hmnd.2, fun hx => hl_ms.2.1 hx.symm⟩, fun hx => hl_ms.2.2 hx.symm⟩
      · rw [List.disjoint_left]
        intro x hx hmem
        rcases List.mem_cons.mp hmem with hxx | hxx
        · exact hb_H (hxx ▸ hx)
        · rcases List.mem_cons.mp hxx with hxx | hxx
          · exact hmo_H (hxx ▸ hx)
          · rcases List.mem_cons.mp hxx with hxx | hxx
            · exact hho_H (hxx ▸ hx)
            · rcases List.mem_cons.mp hxx with hxx | hxx
              · exact hl_H (hxx ▸ hx)
              · cases hxx

/-- **C8.** `detect_all_patterns` runs the two scenario searches for
exactly the first five employee candidates (by score order): the result
bundle keeps the full employee-candidate list unchanged, the Scenario A
map has an entry `(e, r)` iff `e` is among the top-5 candidates and
`detect_scenario_a` returned the nonempty list `r`, the Scenario B map
has an entry `(e, r)` iff `e` is among the top-5 candidates and
`detect_scenario_b` returned `r`; an employee with fewer than 3 handler
candidates contributes no entry to either map (while the other
employees' entries are unaffected, as the iff characterizations are
per-employee). -/
theorem detect_all_patterns_spec :
    ∀ (a : Analyzer) (cfg : Config),
      (detect_all_patterns a cfg).employee_candidates =
        identify_employee_candidates a cfg ∧
      (∀ e r, (e, r) ∈ (detect_all_patterns a cfg).scenario_a ↔
        ((∃ s, (e, s) ∈ (identify_employee_candidates a cfg).take 5) ∧
          r = detect_scenario_a a cfg e ∧ r ≠ [])) ∧
      (∀ e r, (e, r) ∈ (detect_all_patterns a cfg).scenario_b ↔
        ((∃ s, (e, s) ∈ (identify_employee_candidates a cfg).take 5) ∧
          detect_scenario_b a cfg e = some r)) ∧
      (∀ e, (find_handler_candidates a cfg (a.adj e)).length < 3 →
        (∀ r, (e, r) ∉ (detect_all_patterns a cfg).scenario_a) ∧
        (∀ r, (e, r) ∉ (detect_all_patterns a cfg).scenario_b)) := by
  intro a cfg
  have hA : ∀ e r, (e, r) ∈ (detect_all_patterns a cfg).scenario_a ↔
      ((∃ s, (e, s) ∈ (identify_employee_candidates a cfg).take 5) ∧
        r = detect_scenario_a a cfg e ∧ r ≠ []) := by
    intro e r
    rw [detect_all_patterns]
    constructor
    · intro h
      obtain ⟨ec, hec, hg⟩ := List.mem_filterMap.mp h
      by_cases hne : detect_scenario_a a cfg ec.1 = []
      · rw [if_pos hne] at hg
        cases hg
      · rw [if_neg hne] at hg
        have hg' := Option.some.inj hg
        have he : ec.1 = e := congrArg Prod.fst hg'
        have hr : detect_scenario_a a cfg ec.1 = r := congrArg Prod.snd hg'
        refine ⟨⟨ec.2, ?_⟩, ?_, ?_⟩
        · rw [← he]
          simpa using hec
        · rw [← hr, he]
        · rw [← hr]
          exact hne
    · rintro ⟨⟨s, hs⟩, hr, hne⟩
      refine List.mem_filterMap.mpr ⟨(e, s), hs, ?_⟩
      rw [if_neg (by rw [← hr]; exact hne)]
      rw [hr]
  have hB : ∀ e r, (e, r) ∈ (detect_all_patterns a cfg).scenario_b ↔
      ((∃ s, (e, s) ∈ (identify_employee_candidates a cfg).take 5) ∧
        detect_scenario_b a cfg e = some r) := by
    intro e r
    rw [detect_all_patterns]
    constructor
    · intro h
      obtain ⟨ec, hec, hg⟩ := List.mem_filterMap.mp h
      cases hd : detect_scenario_b a cfg ec.1 with
      | none => rw [hd] at hg; cases hg
      | some r' =>
        rw [hd] at hg
        dsimp only at hg
        have hg' := Option.some.inj hg
        have he : ec.1 = e := congrArg Prod.fst hg'
        have hr : r' = r := congrArg Prod.snd hg'
        exact ⟨⟨ec.2, he ▸ hec⟩, by rw [← he, hd, hr]⟩
    · rintro ⟨⟨s, hs⟩, hr⟩
      refine List.mem_filterMap.mpr ⟨(e, s), hs, ?_⟩
      rw [hr]
  refine ⟨rfl, hA, hB, ?_⟩
  intro e hlt
  constructor
  · intro r hr
    obtain ⟨-, hreq, hne⟩ := (hA e r).mp hr
    rw [detect_scenario_a, if_pos hlt] at hreq
    exact hne hreq
  · intro r hr
    obtain ⟨-, hreq⟩ := (hB e r).mp hr
    rw [detect_scenario_b, if_pos hlt] at hreq
    cases hreq

/-- A small sample network — two nodes joined by one edge — used to
instantiate the general theorems on concrete data. -/
def sampleA : Analyzer :=
  { nodes := [1, 2]
    adj := fun n => if n = 1 then [2] else if n = 2 then [1] else []
    city := fun _ => ""
    betweenness := fun _ => 0
    clustering := fun _ => 0 }

/-- A sample configuration for `sampleA`. -/
def sampleCfg : Config :=
  { employee_expected_contacts := 1
    employee_tolerance := 0
    handlers_min := 1
    handlers_max := 1
    leader_min_contacts := 1
    large_cities := []
    small_cities := [] }

/-- Adjacency of a 21-node network on which the Scenario B search
records a valid configuration whose score is 0: employee 1 with
handlers 2, 3, 4; per-handler middlemen 5, 6, 7 (degree 15, betweenness
0.006); common middleman neighbor 8 as leader (betweenness 1/2); nodes
9–21 pad the middlemen's degrees to 15. -/
def cexAdj : Nat → List Nat := fun n =>
  if n = 1 then [2, 3, 4]
  else if n = 2 then [1, 5]
  else if n = 3 then [1, 6]
  else if n = 4 then [1, 7]
  else if n = 5 then [2, 8, 9, 10, 11, 12, 13, 14, 15, 16, 17, 18, 19, 20, 21]
  else if n = 6 then [3, 8, 9, 10, 11, 12, 13, 14, 15, 16, 17, 18, 19, 20, 21]
  else if n = 7 then [4, 8, 9, 10, 11, 12, 13, 14, 15, 16, 17, 18, 19, 20, 21]
  else if n = 8 then [5, 6, 7]
  else if 9 ≤ n ∧ n ≤ 21 then [5, 6, 7]
  else []

/-- The 21-node analyzer built on `cexAdj`. -/
def cexA : Analyzer :=
  { nodes := [1, 2, 3, 4, 5, 6, 7, 8, 9, 10, 11, 12, 13, 14, 15, 16, 17, 18, 19, 20, 21]
    adj := cexAdj
    city := fun _ => ""
    betweenness := fun n =>
      if n = 8 then 1 / 2 else if n = 5 ∨ n = 6 ∨ n = 7 then 3 / 500 else 0
    clustering := fun _ => 0 }

/-- A configuration under which `cexA`'s Scenario B search records a
zero-score configuration (handler window [3, 3], leader minimum 1, no
large or small cities). -/
def cexCfg : Config :=
  { employee_expected_contacts := 3
    employee_tolerance := 0
    handlers_min := 3
    handlers_max := 3
    leader_min_contacts := 1
    large_cities := []
    small_cities := [] }

theorem cexA_simple : ∀ n, n ∉ cexA.adj n := by
  intro n
  show n ∉ cexAdj n
  simp only [cexAdj]
  split_ifs with h1 h2 h3 h4 h5 h6 h7 h8 h9
  · subst h1; decide
  · subst h2; decide
  · subst h3; decide
  · subst h4; decide
  · subst h5; decide
  · subst h6; decide
  · subst h7; decide
  · subst h8; decide
  · intro hmem
    simp only [List.mem_cons, List.not_mem_nil, or_false] at hmem
    omega
  · exact List.not_mem_nil n

theorem cexA_adj_nodup : ∀ n, (cexA.adj n).Nodup := by
  intro n
  show (cexAdj n).Nodup
  simp only [cexAdj]
  split_ifs <;> decide

theorem cexA_adj_eq : cexA.adj = cexAdj := rfl

theorem cexA_betw_eq : cexA.betweenness =
    fun n => if n = 8 then 1 / 2 else if n = 5 ∨ n = 6 ∨ n = 7 then 3 / 500 else 0 := rfl

theorem cexA_city_eq : cexA.city = fun _ => "" := rfl

theorem cexComb : combinations3 [((2 : Nat), (1 : ℚ)/2), (3, 1/2), (4, 1/2)] =
    [[(2, 1/2), (3, 1/2), (4, 1/2)]] := rfl

/-- **C6 counterexample.** On the concrete 21-node network `cexA` with
configuration `cexCfg`, the Scenario B enumeration records exactly one
valid configuration (employee 1, handlers [2, 3, 4], three distinct
middlemen 5, 6, 7, leader 8) — but its score is 0, so the `>`
comparison against the initial best score 0 never fires and
`detect_scenario_b` returns `None` even though a valid configuration
exists. -/
theorem scenario_b_missed_configuration_counterexample :
    valid_configurations_b cexA cexCfg 1 = [⟨1, [2, 3, 4], 5, 6, 7, 8, 0⟩] ∧
    detect_scenario_b cexA cexCfg 1 = none := by
  have hHand : find_handler_candidates cexA cexCfg (cexA.adj 1) =
      [(2, 1/2), (3, 1/2), (4, 1/2)] := by
    norm_num [find_handler_candidates, calculate_handler_score, cexA, cexAdj, cexCfg,
      Analyzer.degree, sortDescBy, insertDescBy]
  have hMid : middlemen_for cexA cexCfg 1 [2, 3, 4] = [5, 6, 7] := by
    norm_num [middlemen_for, find_best_middleman_for_handler, bestBy, bestByStep,
      middleman_admissible, middleman_score, cexA, cexAdj, cexCfg, Analyzer.degree,
      List.filterMap_cons, List.filter_cons, List.foldl_cons]
  have h3 : degree_threshold_top2 cexA = 15 := by
    norm_num [degree_threshold_top2, top_2_percent_count, sortDescBy, insertDescBy,
      cexA, cexAdj, Analyzer.degree]
  have h4 : betweenness_threshold_top2 cexA = 3/500 := by
    norm_num [betweenness_threshold_top2, top_2_percent_count, sortDescBy, insertDescBy,
      cexA, cexAdj, Analyzer.degree]
  have hpool : leader_pool_b cexA 5 6 7 [2, 3, 4, 1, 5, 6, 7] =
      [8, 9, 10, 11, 12, 13, 14, 15, 16, 17, 18, 19, 20, 21] := by
    norm_num [leader_pool_b, cexA, cexAdj, List.filter_cons]
  have hLead : find_fearless_leader cexA cexCfg
      [8, 9, 10, 11, 12, 13, 14, 15, 16, 17, 18, 19, 20, 21]
      [2, 3, 4, 1, 5, 6, 7] = some 8 := by
    norm_num [find_fearless_leader, bestBy, bestByStep, leader_qualifies, leader_score,
      h3, h4, cexA_adj_eq, cexA_betw_eq, cexA_city_eq, cexAdj, cexCfg, Analyzer.degree,
      List.foldl_cons]
  have hScore : score_scenario_b_configuration cexA cexCfg 1 [2, 3, 4] [5, 6, 7] 8 = 0 := by
    norm_num [score_scenario_b_configuration, score_geographic_pattern, cexA, cexAdj,
      cexCfg, Analyzer.degree]
  have hRec : record_scenario_b cexA cexCfg 1 [2, 3, 4] =
      some ⟨1, [2, 3, 4], 5, 6, 7, 8, 0⟩ := by
    rw [record_scenario_b, hMid]
    norm_num [hpool, hLead, hScore, List.dedup_cons_of_not_mem, List.dedup_nil]
  have hValid : valid_configurations_b cexA cexCfg 1 =
      [⟨1, [2, 3, 4], 5, 6, 7, 8, 0⟩] := by
    rw [valid_configurations_b, hHand]
    norm_num [cexComb, hRec, List.filterMap_cons]
  refine ⟨hValid, ?_⟩
  rw [detect_scenario_b, hHand]
  norm_num [hValid, bestBy, bestByStep, List.foldl_cons]

theorem leader_threshold_rank_spec_witness : top_2_percent_count 100 = 2 :=
  leader_threshold_rank_spec.2.1

theorem fearless_leader_spec_witness :
    (∀ n, (0 : ℚ) ≤ sampleA.betweenness n) ∧
    (1 : ℤ) ≤ sampleCfg.leader_min_contacts ∧
    (find_fearless_leader sampleA sampleCfg [2] [] = none ↔
      ∀ n ∈ ([2] : List Nat), n ∉ ([] : List Nat) →
        ¬ leader_qualifies sampleA sampleCfg n) :=
  ⟨fun _ => le_refl 0, le_refl 1,
    (fearless_leader_spec sampleA sampleCfg [2] [] (fun _ => le_refl 0) (le_refl 1)).2⟩

theorem employee_candidates_spec_witness :
    List.Sorted (fun x y : Nat × ℚ => y.2 ≤ x.2)
      (identify_employee_candidates sampleA sampleCfg) :=
  (employee_candidates_spec sampleA sampleCfg).2

theorem handler_candidates_spec_witness :
    List.Sorted (fun x y : Nat × ℚ => y.2 ≤ x.2)
      (find_handler_candidates sampleA sampleCfg [1, 2]) :=
  (handler_candidates_spec sampleA sampleCfg [1, 2]).2

theorem scenario_b_middlemen_distinct_witness :
    ([2, 3, 4] : List Nat).length = 3 ∧
    (¬ (middlemen_for cexA cexCfg 1 [2, 3, 4]).Nodup →
      record_scenario_b cexA cexCfg 1 [2, 3, 4] = none) :=
  ⟨rfl, (scenario_b_middlemen_distinct cexA cexCfg 1 [2, 3, 4] rfl).2⟩

theorem scenario_b_best_configuration_spec_witness :
    detect_scenario_b cexA cexCfg 1 = none ↔
      ∀ c ∈ valid_configurations_b cexA cexCfg 1, c.score ≤ 0 :=
  (scenario_b_best_configuration_spec cexA cexCfg 1).2

theorem scenario_a_search_spec_witness :
    List.Sorted (fun x y : ConfigurationA => y.score ≤ x.score)
      (detect_scenario_a sampleA sampleCfg 1) :=
  (scenario_a_search_spec sampleA sampleCfg 1).2.2.1

theorem detect_all_patterns_spec_witness :
    (detect_all_patterns sampleA sampleCfg).employee_candidates =
      identify_employee_candidates sampleA sampleCfg :=
  (detect_all_patterns_spec sampleA sampleCfg).1

theorem top_nodes_by_metric_spec_witness :
    (([("degree_centrality", [(1, (1 : ℚ)), (2, 2)])] :
        List (String × List (Nat × ℚ))).lookup "degree_centrality" =
      some [(1, (1 : ℚ)), (2, 2)]) ∧
    get_top_nodes_by_metric [("degree_centrality", [(1, (1 : ℚ)), (2, 2)])]
        "degree_centrality" 10 =
      (sortDescBy Prod.snd [(1, (1 : ℚ)), (2, 2)]).take 10 ∧
    List.Sorted (fun x y : Nat × ℚ => y.2 ≤ x.2)
      (get_top_nodes_by_metric [("degree_centrality", [(1, (1 : ℚ)), (2, 2)])]
        "degree_centrality" 10) :=
  ⟨rfl, (top_nodes_by_metric_spec _ "degree_centrality" 10).2 _ rfl⟩

theorem scenario_configurations_roles_distinct_witness :
    (∀ n, n ∉ cexA.adj n) ∧ (∀ n, (cexA.adj n).Nodup) ∧
    (∀ c ∈ detect_scenario_a cexA cexCfg 1,
      c.handlers.length = 3 ∧
      (c.employee :: (c.handlers ++ [c.boris, c.fearless_leader])).Nodup) :=
  ⟨cexA_simple, cexA_adj_nodup,
    (scenario_configurations_roles_distinct cexA cexCfg 1 cexA_simple cexA_adj_nodup).1⟩
